import Mathlib

/-!
Shallow embedding of the sqlittle read-only SQLite reader
(files `db/pager_windows.go` and the low-level schema/table layer),
together with proofs about header parsing, the dirty-resolution state
machine, the `sqlite_master` reader, table/index lookup, the pager and
scan cancellation.

Bytes are modelled as natural numbers reduced mod 256; multi-byte
integers are big-endian, as in the file format.
-/

namespace Sqlittle

/-- Byte `i` of a byte list; out-of-range reads give 0 and every read is
reduced mod 256, mirroring Go's `[100]byte` indexing. -/
def byteAt (b : List Nat) (i : Nat) : Nat := b.getD i 0 % 256

/-- Big-endian 16-bit read at offset `i`. -/
def be16 (b : List Nat) (i : Nat) : Nat := byteAt b i * 256 + byteAt b (i + 1)

/-- Big-endian 32-bit read at offset `i`. -/
def be32 (b : List Nat) (i : Nat) : Nat :=
  ((byteAt b i * 256 + byteAt b (i + 1)) * 256 + byteAt b (i + 2)) * 256 + byteAt b (i + 3)

/-- Fuelled population count; `onesCountAux n n` computes the number of
1-bits of `n` (the fuel only needs to dominate the recursion depth). -/
def onesCountAux : Nat → Nat → Nat
  | 0, _ => 0
  | fuel + 1, n => if n = 0 then 0 else n % 2 + onesCountAux fuel (n / 2)

/-- Population count, Go's `bits.OnesCount` from `math/bits`. -/
def onesCount (n : Nat) : Nat := onesCountAux n n

/-- The errors of the `sqlittle` package (`errors.New` values in
`db/pager_windows.go`); `ioMsg` stands for ad-hoc `errors.New` /
propagated I/O errors, carrying the message. -/
inductive DBErr where
  | invalidMagic
  | invalidPageSize
  | reservedSpace
  | corrupted
  | invalidDef
  | recursion
  | fileTruncated
  | incompatible
  | encoding
  | wal
  | hotJournal
  | noSuchTable
  | noSuchIndex
  | ioMsg (msg : String)
deriving DecidableEq, Repr

/-- The parsed file header (`type header` in the source). -/
structure Header where
  pageSize : Nat
  changeCounter : Nat
  schemaCookie : Nat
deriving DecidableEq, Repr

/-- The 16 magic bytes `"SQLite format 3\x00"`. -/
def headerMagic : List Nat :=
  [83, 81, 76, 105, 116, 101, 32, 102, 111, 114, 109, 97, 116, 32, 51, 0]

/-- Check that bytes 0..15 equal the magic string. -/
def magicOk (b : List Nat) : Bool :=
  (List.range 16).all (fun i => byteAt b i == headerMagic.getD i 0)

/-- The page size denoted by the raw 16-bit field at offset 16: a raw
value of 1 means 65536. -/
def pageSizeOf (b : List Nat) : Nat :=
  let raw := be16 b 16
  if raw = 1 then 65536 else raw

/-- The source's page-size validation: `s < 512 || s > 1<<16 || !isPower(s)`
rejected, where `isPower` is a popcount-equals-one test. -/
def pageSizeOk (b : List Nat) : Bool :=
  let s := pageSizeOf b
  !(s < 512 || s > 65536 || onesCount s != 1)

/-- Page fractions (bytes 21, 22, 23) must be 64/32/32. -/
def fractionsOk (b : List Nat) : Bool :=
  byteAt b 21 == 64 && byteAt b 22 == 32 && byteAt b 23 == 32

/-- Schema format (32-bit at offset 44) must be 2, 3 or 4. -/
def schemaFormatOk (b : List Nat) : Bool :=
  be32 b 44 == 2 || be32 b 44 == 3 || be32 b 44 == 4

/-- The 20 reserved-for-expansion bytes at offsets 72..91 must be zero. -/
def reservedExpansionOk (b : List Nat) : Bool :=
  (List.range 20).all (fun i => byteAt b (72 + i) == 0)

/-- Translation of `parseHeader` from `db/pager_windows.go`: validates the 100-byte
header and extracts page size, change counter and schema cookie.  The
checks appear in the source's order: magic, page size, read version,
reserved space, fractions, schema format, text encoding, reserved
bytes. -/
def parseHeader (b : List Nat) : Except DBErr Header :=
  if !magicOk b then .error .invalidMagic
  else if !pageSizeOk b then .error .invalidPageSize
  else if byteAt b 19 = 1 then
    if byteAt b 20 ≠ 0 then .error .reservedSpace
    else if !fractionsOk b then .error .incompatible
    else if !schemaFormatOk b then .error .incompatible
    else if be32 b 56 = 1 then
      if !reservedExpansionOk b then .error .incompatible
      else .ok ⟨pageSizeOf b, be32 b 24, be32 b 40⟩
    else if be32 b 56 = 2 ∨ be32 b 56 = 3 then .error .encoding
    else .error .incompatible
  else if byteAt b 19 = 2 then .error .wal
  else .error .incompatible

/-- Spec-side page-size validity: "a power of two in [512, 65536]"
(after the raw-1-means-65536 rule), written as the literal enumeration
of those powers. -/
def pageSizeSpecOk (b : List Nat) : Bool :=
  [512, 1024, 2048, 4096, 8192, 16384, 32768, 65536].contains (pageSizeOf b)

/-- Spec-side list of the eight header checks, in the spec's order, each
paired with the error it raises when it is the first to fail. -/
def specCheckList (b : List Nat) : List (Bool × DBErr) :=
  [ (magicOk b, .invalidMagic),
    (pageSizeSpecOk b, .invalidPageSize),
    (decide (byteAt b 19 = 1), if byteAt b 19 = 2 then .wal else .incompatible),
    (decide (byteAt b 20 = 0), .reservedSpace),
    (fractionsOk b, .incompatible),
    (schemaFormatOk b, .incompatible),
    (decide (be32 b 56 = 1),
      if be32 b 56 = 2 ∨ be32 b 56 = 3 then .encoding else .incompatible),
    (reservedExpansionOk b, .incompatible) ]

/-- Spec-side header parser: run the eight checks in order, return the
error of the first failing check, otherwise the header carrying the page
size, change counter and schema cookie. -/
def parseHeaderSpec (b : List Nat) : Except DBErr Header :=
  match (specCheckList b).find? (fun c => !c.1) with
  | some c => .error c.2
  | none => .ok ⟨pageSizeOf b, be32 b 24, be32 b 40⟩

/-! ### Records and `sqlite_master` rows -/

/-- A decoded record value (Go's `interface{}` results of `parseRecord`:
`nil`, `int64`, `float64`, `string`, `[]byte`).  Floats are carried as
their raw bit pattern; no claim inspects them. -/
inductive Value where
  | null
  | int (i : Int)
  | real (bits : Nat)
  | text (s : String)
  | blob (bs : List Nat)
deriving DecidableEq, Repr

/-- A `sqlite_master` row (`type sqliteMaster` in the source). -/
structure SqliteMaster where
  typ : String
  name : String
  tblName : String
  rootPage : Int
  sql : String
deriving DecidableEq, Repr

/-- The per-row body of the `master()` iteration callback: a decoded
record must be a 5-tuple `(type, name, tbl_name, rootpage, sql)` with
text, text, text, integer, text fields, otherwise `ErrInvalidDef`. -/
def masterRow (e : List Value) : Except DBErr SqliteMaster :=
  if e.length ≠ 5 then .error .invalidDef
  else
    match e.getD 0 .null, e.getD 1 .null, e.getD 2 .null,
        e.getD 3 .null, e.getD 4 .null with
    | .text t, .text n, .text tb, .int i, .text s => .ok ⟨t, n, tb, i, s⟩
    | _, _, _, _, _ => .error .invalidDef

/-- The `master()` iteration over the decoded rows of the page-1 table
b-tree: rows are visited in order, each through `masterRow`; a failing
row aborts the iteration, keeping the rows accepted before it (the Go
callback appends to `objects` and returns the error). -/
def masterCompute : List (List Value) → List SqliteMaster × Option DBErr
  | [] => ([], none)
  | r :: rs =>
    match masterRow r with
    | .error e => ([], some e)
    | .ok m =>
      let (ms, err) := masterCompute rs
      (m :: ms, err)

/-! ### Journal sidecar and the database state machine -/

/-- The rollback-journal magic bytes. -/
def journalMagic : List Nat := [217, 213, 5, 249, 32, 161, 99, 215]

/-- Modelled from the spec: `validJournal` is code of this repository
that is not under `src/` (only its caller `resolveDirty` is).  Per the
spec, the journal sidecar is hot iff the file exists, its size is at
least 28 bytes, its first 8 bytes match the journal magic and the first
page-count field (32-bit at offset 8) is nonzero.  `none` models a
missing sidecar file. -/
def validJournal (j : Option (List Nat)) : Bool :=
  match j with
  | none => false
  | some bytes =>
    decide (28 ≤ bytes.length) &&
      (List.range 8).all (fun i => byteAt bytes i == journalMagic.getD i 0) &&
      be32 bytes 8 != 0

/-- The single-slot `sqlite_master` cache: stores both the objects and
the error of the computation (`type objectCache`). -/
structure ObjectCache where
  objects : List SqliteMaster
  err : Option DBErr
deriving DecidableEq, Repr

/-- The mutable fields of `type Database`.  The b-tree page cache is
kept as the list of cached page ids; its contents are irrelevant to the
claims, only which entries survive. -/
structure DBState where
  journal : String
  dirty : Bool
  header : Option Header
  btreeCache : List Nat
  objectCache : Option ObjectCache
deriving DecidableEq, Repr

/-- The external world a `Database` interacts with: the journal sidecar
bytes (if the file exists), the pager's `header()` read, the pager's
`CheckReservedLock`, and the outcome of opening and decoding the page-1
table b-tree (`openTable(1)` failure, and the decoded rows it yields).
The b-tree machinery itself is not under `src/`, so its output is
supplied here. -/
structure Env where
  journalBytes : Option (List Nat)
  headerRead : Except DBErr (List Nat)
  reservedLock : Except DBErr Bool
  masterOpenErr : Option DBErr
  masterRows : List (List Value)

/-- Translation of `filePager.CheckReservedLock`: the lock
probe is commented out and the function returns `false, nil`
unconditionally. -/
def filePagerCheckReservedLock : Except DBErr Bool := .ok false

/-- Translation of `Database.resolveDirty`: when the dirty flag is set, first gate on a
hot journal sidecar (tolerated only if another process holds a reserved
lock), then re-read and re-parse the header, clear the page cache on a
change-counter change and the object cache on a schema-cookie change,
and clear the dirty flag.  Returned alongside the result is the
database state (unchanged on every error path, as in the source where
mutation happens only after all checks pass). -/
def resolveDirty (env : Env) (db : DBState) : Except DBErr Unit × DBState :=
  if !db.dirty then (.ok (), db)
  else
    let gate : Except DBErr Unit :=
      if db.journal ≠ "" then
        if validJournal env.journalBytes then
          match env.reservedLock with
          | .error e => .error e
          | .ok locked => if !locked then .error .hotJournal else .ok ()
        else .ok ()
      else .ok ()
    match gate with
    | .error e => (.error e, db)
    | .ok _ =>
      match env.headerRead with
      | .error e => (.error e, db)
      | .ok buf =>
        match parseHeader buf with
        | .error e => (.error e, db)
        | .ok newHeader =>
          let db₁ :=
            match db.header with
            | some h =>
              if h.changeCounter ≠ newHeader.changeCounter
              then { db with btreeCache := [] } else db
            | none => db
          let db₂ :=
            match db.header with
            | some h =>
              if h.schemaCookie ≠ newHeader.schemaCookie
              then { db₁ with objectCache := none } else db₁
            | none => db₁
          (.ok (), { db₂ with dirty := false, header := some newHeader })

/-- Translation of `newDatabase`: fresh state with the given journal path, dirty flag
set, empty page cache, then an immediate `resolveDirty`. -/
def newDatabase (env : Env) (journal : String) : Except DBErr Unit × DBState :=
  resolveDirty env
    { journal := journal, dirty := true, header := none,
      btreeCache := [], objectCache := none }

/-- The journal sidecar path `OpenFile` derives from the database path. -/
def journalName (f : String) : String := f ++ "-journal"

/-- Translation of `OpenFile`: open a pager on the file and build the database with the
`<path>-journal` sidecar path. -/
def openFile (env : Env) (f : String) : Except DBErr Unit × DBState :=
  newDatabase env (journalName f)

/-- Translation of `Database.master`: resolve the dirty flag, serve from the object
cache when present (both objects and error), otherwise open the page-1
table b-tree (an open failure is returned uncached) and fold the rows
through the callback, caching objects and error together. -/
def master (env : Env) (db : DBState) :
    (List SqliteMaster × Option DBErr) × DBState :=
  match resolveDirty env db with
  | (.error e, db') => (([], some e), db')
  | (.ok _, db') =>
    match db'.objectCache with
    | some o => ((o.objects, o.err), db')
    | none =>
      match env.masterOpenErr with
      | some e => (([], some e), db')
      | none =>
        let (objs, err) := masterCompute env.masterRows
        ((objs, err), { db' with objectCache := some ⟨objs, err⟩ })

/-! ### Table and index lookup -/

/-- A table handle (`type Table`): the owning database is the ambient
state, the handle carries the root page and the SQL text. -/
structure TableHandle where
  root : Int
  sql : String
deriving DecidableEq, Repr

/-- An index handle (`type Index`). -/
structure IndexHandle where
  root : Int
  sql : String
deriving DecidableEq, Repr

/-- The linear search of `Database.Table`: first object with
`typ = "table"` and the given name wins. -/
def tableSearch (name : String) : List SqliteMaster → Except DBErr TableHandle
  | [] => .error .noSuchTable
  | o :: os =>
    if o.typ = "table" ∧ o.name = name then .ok ⟨o.rootPage, o.sql⟩
    else tableSearch name os

/-- The linear search of `Database.Index`. -/
def indexSearch (name : String) : List SqliteMaster → Except DBErr IndexHandle
  | [] => .error .noSuchIndex
  | o :: os =>
    if o.typ = "index" ∧ o.name = name then .ok ⟨o.rootPage, o.sql⟩
    else indexSearch name os

/-- Translation of `Database.Table`: fetch master (propagating its error), then search. -/
def dbTable (env : Env) (db : DBState) (name : String) :
    Except DBErr TableHandle × DBState :=
  match master env db with
  | ((_, some e), db') => (.error e, db')
  | ((objs, none), db') => (tableSearch name objs, db')

/-- Translation of `Database.Index`: fetch master (propagating its error), then search. -/
def dbIndex (env : Env) (db : DBState) (name : String) :
    Except DBErr IndexHandle × DBState :=
  match master env db with
  | ((_, some e), db') => (.error e, db')
  | ((objs, none), db') => (indexSearch name objs, db')

/-! ### The pager's page reads -/

/-- Modelled from the spec: `mmap.ReaderAt.ReadAt` is external to the
repository; per the spec the pager "returns `page_size` bytes at offset
`(id-1)·page_size`" and "fails with file-truncated if the region lies
past the mapping". -/
def mmapReadAt (file : List Nat) (n : Nat) (off : Nat) : Except DBErr (List Nat) :=
  if off + n ≤ file.length then .ok ((file.drop off).take n)
  else .error .fileTruncated

/-- Translation of `filePager.page`: read `pagesize` bytes at offset `(id-1)*pagesize`
of the mapping (ids count from 1). -/
def filePagerPage (file : List Nat) (id : Nat) (pagesize : Nat) :
    Except DBErr (List Nat) :=
  mmapReadAt file pagesize ((id - 1) * pagesize)

/-- Translation of `Database.page`: reject ids below 1 without touching the pager, then
delegate with the header's page size. -/
def dbPage (file : List Nat) (pageSize : Nat) (id : Int) :
    Except DBErr (List Nat) :=
  if id < 1 then .error (.ioMsg "invalid page number")
  else filePagerPage file id.toNat pageSize

/-! ### Scans and stop propagation -/

/-- Modelled from the spec: the b-tree `Iter` is not under `src/`.  Per
the spec it visits leaf cells left-to-right and a callback returning
`stop = true` (or an error) ends the traversal.  `iterTrace` returns the
visited cells in order together with the final result. -/
def iterTrace (f : α → Except DBErr Bool) : List α → List α × Except DBErr Bool
  | [] => ([], .ok false)
  | x :: xs =>
    match f x with
    | .error e => ([x], .error e)
    | .ok true => ([x], .ok true)
    | .ok false =>
      let (t, r) := iterTrace f xs
      (x :: t, r)

/-- The `Table.Scan` callback wrapper: a table cell carries a rowid and
a decode outcome (`addOverflow`/`parseRecord`); on success the user
callback's stop flag is returned with no error. -/
def tableScanStep (cb : Int → List Value → Bool)
    (cell : Int × Except DBErr (List Value)) : Except DBErr Bool :=
  match cell.2 with
  | .error e => .error e
  | .ok rec => .ok (cb cell.1 rec)

/-- The `Index.Scan` callback wrapper: an index cell carries a decode
outcome; on success the user callback's stop flag is returned with no
error. -/
def indexScanStep (cb : List Value → Bool)
    (cell : Except DBErr (List Value)) : Except DBErr Bool :=
  match cell with
  | .error e => .error e
  | .ok rec => .ok (cb rec)

/-- The `Table.Scan` traversal as a trace over the table's leaf cells. -/
def tableScanTrace (cells : List (Int × Except DBErr (List Value)))
    (cb : Int → List Value → Bool) :
    List (Int × Except DBErr (List Value)) × Except DBErr Bool :=
  iterTrace (tableScanStep cb) cells

/-- The `Index.Scan` traversal as a trace over the index's leaf cells. -/
def indexScanTrace (cells : List (Except DBErr (List Value)))
    (cb : List Value → Bool) :
    List (Except DBErr (List Value)) × Except DBErr Bool :=
  iterTrace (indexScanStep cb) cells

/-! ### Popcount lemmas -/

theorem onesCountAux_zero (f : Nat) : onesCountAux f 0 = 0 := by
  cases f <;> simp [onesCountAux]

theorem onesCountAux_fuel (n : Nat) :
    ∀ f₁ f₂, n ≤ f₁ → n ≤ f₂ → onesCountAux f₁ n = onesCountAux f₂ n := by
  induction n using Nat.strong_induction_on with
  | _ n ih =>
    intro f₁ f₂ h₁ h₂
    rcases Nat.eq_zero_or_pos n with hn | hn
    · subst hn; rw [onesCountAux_zero, onesCountAux_zero]
    · obtain ⟨g₁, rfl⟩ : ∃ g, f₁ = g + 1 :=
        ⟨f₁ - 1, by omega⟩
      obtain ⟨g₂, rfl⟩ : ∃ g, f₂ = g + 1 :=
        ⟨f₂ - 1, by omega⟩
      have hlt : n / 2 < n := Nat.div_lt_self hn (by norm_num)
      simp only [onesCountAux, Nat.pos_iff_ne_zero.mp hn, if_neg]
      rw [ih (n / 2) hlt g₁ g₂ (by omega) (by omega)]

theorem onesCount_rec (n : Nat) (hn : n ≠ 0) :
    onesCount n = n % 2 + onesCount (n / 2) := by
  obtain ⟨m, rfl⟩ : ∃ m, n = m + 1 := ⟨n - 1, by omega⟩
  show onesCountAux (m + 1) (m + 1) = _
  simp only [onesCountAux, if_neg (Nat.succ_ne_zero m)]
  rw [onesCountAux_fuel ((m + 1) / 2) m ((m + 1) / 2) (by omega) (le_refl _)]
  rfl

theorem onesCount_eq_zero (n : Nat) : onesCount n = 0 ↔ n = 0 := by
  induction n using Nat.strong_induction_on with
  | _ n ih =>
    rcases Nat.eq_zero_or_pos n with hn | hn
    · subst hn; simp [onesCount, onesCountAux]
    · rw [onesCount_rec n (by omega)]
      constructor
      · intro h
        have h2 : onesCount (n / 2) = 0 := by omega
        have := (ih (n / 2) (Nat.div_lt_self hn (by norm_num))).mp h2
        omega
      · omega

theorem onesCount_eq_one (n : Nat) : onesCount n = 1 ↔ ∃ k, n = 2 ^ k := by
  induction n using Nat.strong_induction_on with
  | _ n ih =>
    rcases Nat.eq_zero_or_pos n with hn | hn
    · subst hn
      simp only [onesCount, onesCountAux]
      constructor
      · omega
      · rintro ⟨k, hk⟩
        exact absurd hk.symm (Nat.pos_iff_ne_zero.mp (Nat.pos_pow_of_pos k (by norm_num)))
    · rw [onesCount_rec n (by omega)]
      rcases Nat.even_or_odd n with he | ho
      · have hmod : n % 2 = 0 := Nat.even_iff.mp he
        have hhalf : n / 2 < n := Nat.div_lt_self hn (by norm_num)
        rw [hmod, Nat.zero_add, ih (n / 2) hhalf]
        constructor
        · rintro ⟨k, hk⟩
          exact ⟨k + 1, by rw [pow_succ]; omega⟩
        · rintro ⟨k, hk⟩
          match k with
          | 0 => omega
          | j + 1 => exact ⟨j, by rw [pow_succ] at hk; omega⟩
      · have hmod : n % 2 = 1 := Nat.odd_iff.mp ho
        rw [hmod]
        constructor
        · intro h
          have h2 : onesCount (n / 2) = 0 := by omega
          have := (onesCount_eq_zero (n / 2)).mp h2
          exact ⟨0, by omega⟩
        · rintro ⟨k, hk⟩
          match k with
          | 0 =>
            subst hk
            simp [onesCount_eq_zero]
          | j + 1 =>
            rw [pow_succ] at hk
            omega

/-! ### Page-size check: source popcount test versus spec enumeration -/

theorem byteAt_lt (b : List Nat) (i : Nat) : byteAt b i < 256 :=
  Nat.mod_lt _ (by norm_num)

theorem pageSizeOf_le (b : List Nat) : pageSizeOf b ≤ 65536 := by
  have h1 := byteAt_lt b 16
  have h2 := byteAt_lt b (16 + 1)
  have hrw : pageSizeOf b = if be16 b 16 = 1 then 65536 else be16 b 16 := rfl
  rw [hrw]
  unfold be16
  split <;> omega

theorem pageSizeOk_eq_spec (b : List Nat) : pageSizeOk b = pageSizeSpecOk b := by
  have hle := pageSizeOf_le b
  have key : (512 ≤ pageSizeOf b ∧ onesCount (pageSizeOf b) = 1) ↔
      (pageSizeOf b = 512 ∨ pageSizeOf b = 1024 ∨ pageSizeOf b = 2048 ∨
       pageSizeOf b = 4096 ∨ pageSizeOf b = 8192 ∨ pageSizeOf b = 16384 ∨
       pageSizeOf b = 32768 ∨ pageSizeOf b = 65536) := by
    constructor
    · rintro ⟨h512, hone⟩
      obtain ⟨k, hk⟩ := (onesCount_eq_one _).mp hone
      have hk16 : k ≤ 16 := by
        by_contra hgt
        have : 2 ^ 17 ≤ 2 ^ k := Nat.pow_le_pow_right (by norm_num) (by omega)
        omega
      have hk9 : 9 ≤ k := by
        by_contra hlt
        have : 2 ^ k ≤ 2 ^ 8 := Nat.pow_le_pow_right (by norm_num) (by omega)
        omega
      rw [hk]
      interval_cases k <;> norm_num
    · intro h
      rcases h with h | h | h | h | h | h | h | h <;>
        rw [h] <;> exact ⟨by norm_num, by decide⟩
  have src : pageSizeOk b = true ↔ (512 ≤ pageSizeOf b ∧ onesCount (pageSizeOf b) = 1) := by
    simp only [pageSizeOk, Bool.not_eq_true', Bool.or_eq_false_iff,
      decide_eq_false_iff_not, bne_eq_false_iff_eq, not_lt]
    constructor
    · rintro ⟨⟨h1, _⟩, h3⟩
      exact ⟨h1, h3⟩
    · rintro ⟨h1, h3⟩
      exact ⟨⟨h1, by omega⟩, h3⟩
  have tgt : pageSizeSpecOk b = true ↔
      (pageSizeOf b = 512 ∨ pageSizeOf b = 1024 ∨ pageSizeOf b = 2048 ∨
       pageSizeOf b = 4096 ∨ pageSizeOf b = 8192 ∨ pageSizeOf b = 16384 ∨
       pageSizeOf b = 32768 ∨ pageSizeOf b = 65536) := by
    simp [pageSizeSpecOk]
  have hiff : pageSizeOk b = true ↔ pageSizeSpecOk b = true := by
    rw [src, tgt]; exact key
  cases hc : pageSizeOk b <;> cases hd : pageSizeSpecOk b <;> simp_all

/-- A concrete valid 100-byte header: page size 4096, journal read
version, no reserved space, default fractions, change counter 7, schema
cookie 3, schema format 4, UTF-8 encoding, zero reserved bytes. -/
def validHeaderBytes : List Nat :=
  headerMagic ++ [16, 0, 1, 1, 0, 64, 32, 32, 0, 0, 0, 7] ++
    List.replicate 12 0 ++ [0, 0, 0, 3, 0, 0, 0, 4] ++ List.replicate 8 0 ++
    [0, 0, 0, 1] ++ List.replicate 12 0 ++ List.replicate 20 0 ++
    List.replicate 8 0

set_option maxHeartbeats 2000000 in
/-- C1: `parse_header` runs its eight validation checks in the spec's
order (magic, page size, read_version, reserved_space, page fractions,
schema_format, text_encoding, 20 reserved bytes) and returns the error
of the first failing check; a raw page_size of 1 means 65536, otherwise
the page size must be a power of two in [512, 65536]; a nonzero
reserved_space byte yields the reserved-space error; an input passing
all checks yields a Header with that page size, the change counter and
the schema cookie.  Stated as: the source parser agrees with the
spec-order checker `parseHeaderSpec` on every 100-byte input. -/
theorem parseHeader_runs_checks_in_spec_order (b : List Nat)
    (_hb : b.length = 100) : parseHeader b = parseHeaderSpec b := by
  unfold parseHeader parseHeaderSpec specCheckList
  rw [← pageSizeOk_eq_spec b]
  by_cases h1 : magicOk b <;>
    by_cases h2 : pageSizeOk b <;>
      by_cases h3 : byteAt b 19 = 1 <;>
        by_cases h4 : byteAt b 20 = 0 <;>
          by_cases h5 : fractionsOk b <;>
            by_cases h6 : schemaFormatOk b <;>
              by_cases h7 : be32 b 56 = 1 <;>
                by_cases h8 : reservedExpansionOk b <;>
                  simp [h1, h2, h3, h4, h5, h6, h7, h8, List.find?, apply_ite] <;>
                    split <;> simp_all

/-- Witness for C1 at a concrete valid header. -/
theorem parseHeader_runs_checks_in_spec_order_witness :
    validHeaderBytes.length = 100 ∧
      parseHeader validHeaderBytes = parseHeaderSpec validHeaderBytes :=
  ⟨by decide, parseHeader_runs_checks_in_spec_order validHeaderBytes (by decide)⟩

/-- A header identical to `validHeaderBytes` except that the
read-version byte (offset 19) is 2, i.e. a WAL-mode file. -/
def walHeaderBytes : List Nat :=
  headerMagic ++ [16, 0, 1, 2, 0, 64, 32, 32, 0, 0, 0, 7] ++
    List.replicate 12 0 ++ [0, 0, 0, 3, 0, 0, 0, 4] ++ List.replicate 8 0 ++
    [0, 0, 0, 1] ++ List.replicate 12 0 ++ List.replicate 20 0 ++
    List.replicate 8 0

/-- C2: for every header whose magic and page size are valid,
`parse_header` returns the wal-mode error exactly when read_version is
2 (so read_version 1 is accepted past this check), and returns the
incompatible-version error for every other read_version value;
consequently `open` on a file whose header has read_version 2 (and no
hot journal sidecar) fails with the wal-mode error. -/
theorem readVersion_gate (b : List Nat) (h1 : magicOk b = true)
    (h2 : pageSizeOk b = true) :
    (parseHeader b = .error .wal ↔ byteAt b 19 = 2) ∧
    (byteAt b 19 ≠ 1 → byteAt b 19 ≠ 2 → parseHeader b = .error .incompatible) ∧
    (∀ env f, env.headerRead = .ok b → byteAt b 19 = 2 →
      validJournal env.journalBytes = false →
      (openFile env f).1 = .error .wal) := by
  have hwal : parseHeader b = .error .wal ↔ byteAt b 19 = 2 := by
    unfold parseHeader
    by_cases h3 : byteAt b 19 = 1 <;> by_cases h4 : byteAt b 19 = 2 <;>
      simp [h1, h2, h3, h4] <;> (repeat' split) <;> simp_all
  refine ⟨hwal, ?_, ?_⟩
  · intro h3 h4
    unfold parseHeader
    simp [h1, h2, h3, h4]
  · intro env f hread hrv hjournal
    have hph : parseHeader b = .error .wal := hwal.mpr hrv
    simp [openFile, newDatabase, resolveDirty, hjournal, hread, hph]

/-- Witness for C2 at a concrete WAL-mode header. -/
theorem readVersion_gate_witness :
    magicOk walHeaderBytes = true ∧ pageSizeOk walHeaderBytes = true ∧
      ((parseHeader walHeaderBytes = .error .wal ↔ byteAt walHeaderBytes 19 = 2) ∧
       (byteAt walHeaderBytes 19 ≠ 1 → byteAt walHeaderBytes 19 ≠ 2 →
         parseHeader walHeaderBytes = .error .incompatible) ∧
       (∀ env f, env.headerRead = .ok walHeaderBytes →
         byteAt walHeaderBytes 19 = 2 →
         validJournal env.journalBytes = false →
         (openFile env f).1 = .error .wal)) :=
  ⟨by decide, by decide, readVersion_gate walHeaderBytes (by decide) (by decide)⟩

theorem resolveDirty_skip (env : Env) (db : DBState) (h : db.dirty = false) :
    resolveDirty env db = (.ok (), db) := by
  unfold resolveDirty
  simp [h]

theorem resolveDirty_success (env : Env) (db : DBState) (buf : List Nat)
    (newH : Header) (hd : db.dirty = true)
    (hgate : db.journal = "" ∨ validJournal env.journalBytes = false ∨
      env.reservedLock = .ok true)
    (hread : env.headerRead = .ok buf)
    (hparse : parseHeader buf = .ok newH) :
    resolveDirty env db =
      (.ok (),
        { journal := db.journal
          dirty := false
          header := some newH
          btreeCache :=
            match db.header with
            | some h =>
              if h.changeCounter ≠ newH.changeCounter then []
              else db.btreeCache
            | none => db.btreeCache
          objectCache :=
            match db.header with
            | some h =>
              if h.schemaCookie ≠ newH.schemaCookie then none
              else db.objectCache
            | none => db.objectCache }) := by
  rcases hgate with hj | hj | hj <;>
    (unfold resolveDirty
     simp [hd, hj, hread, hparse]
     cases hh : db.header with
     | none => simp [hj]
     | some h =>
       by_cases hc : h.changeCounter = newH.changeCounter <;>
         by_cases hs : h.schemaCookie = newH.schemaCookie <;>
           simp [hc, hs, hj])

/-- C3: when the dirty flag is clear, `resolve_dirty` succeeds and
leaves the state untouched; when it is set and no hot journal blocks it
(no sidecar path, or the sidecar is not hot, or a reserved lock is
held), it re-reads and re-parses the header, clears the page cache
exactly when the change counter differs from the cached one, clears the
object cache exactly when the schema cookie differs, and clears the
dirty flag. -/
theorem resolveDirty_refresh (env : Env) (db : DBState) :
    (db.dirty = false → resolveDirty env db = (.ok (), db)) ∧
    (∀ buf newH,
      db.dirty = true →
      (db.journal = "" ∨ validJournal env.journalBytes = false ∨
        env.reservedLock = .ok true) →
      env.headerRead = .ok buf →
      parseHeader buf = .ok newH →
      resolveDirty env db =
        (.ok (),
          { journal := db.journal
            dirty := false
            header := some newH
            btreeCache :=
              match db.header with
              | some h =>
                if h.changeCounter ≠ newH.changeCounter then []
                else db.btreeCache
              | none => db.btreeCache
            objectCache :=
              match db.header with
              | some h =>
                if h.schemaCookie ≠ newH.schemaCookie then none
                else db.objectCache
              | none => db.objectCache })) :=
  ⟨resolveDirty_skip env db,
   fun buf newH hd hgate hread hparse =>
     resolveDirty_success env db buf newH hd hgate hread hparse⟩

/-- A test environment: no journal sidecar, a valid header read, the
windows pager's lock probe, page-1 opening fine with no rows. -/
def envPlain : Env :=
  { journalBytes := none
    headerRead := .ok validHeaderBytes
    reservedLock := filePagerCheckReservedLock
    masterOpenErr := none
    masterRows := [] }

/-- A clean (not dirty) database state. -/
def dbClean : DBState :=
  { journal := "x-journal", dirty := false, header := none,
    btreeCache := [1], objectCache := none }

/-- A dirty database state whose cached header disagrees with
`validHeaderBytes` in both the change counter and the schema cookie. -/
def dbDirty : DBState :=
  { journal := "x-journal", dirty := true,
    header := some ⟨4096, 3, 9⟩, btreeCache := [1, 2],
    objectCache := some ⟨[], none⟩ }

/-- Witness for C3: the clean state is untouched; the dirty state is
refreshed with both caches cleared. -/
theorem resolveDirty_refresh_witness :
    resolveDirty envPlain dbClean = (.ok (), dbClean) ∧
      resolveDirty envPlain dbDirty =
        (.ok (), { journal := "x-journal", dirty := false,
                   header := some ⟨4096, 7, 3⟩, btreeCache := [],
                   objectCache := none }) :=
  ⟨(resolveDirty_refresh envPlain dbClean).1 rfl,
   (resolveDirty_refresh envPlain dbDirty).2 validHeaderBytes ⟨4096, 7, 3⟩ rfl
     (Or.inr (Or.inl rfl)) rfl rfl⟩

/-- C4: with the dirty flag set, a non-empty journal path, a sidecar
that qualifies as hot (exists, at least 28 bytes, journal magic, nonzero
page count) and no reserved lock held, `resolve_dirty` returns the
hot-journal error whatever the header read would yield (it never reaches
it), and leaves the state unchanged. -/
theorem resolveDirty_hot_journal_blocks (env : Env) (db : DBState)
    (jb : List Nat)
    (hd : db.dirty = true) (hj : db.journal ≠ "")
    (hjb : env.journalBytes = some jb)
    (hlen : 28 ≤ jb.length)
    (hmagic : ((List.range 8).all fun i => byteAt jb i == journalMagic.getD i 0) = true)
    (hcount : be32 jb 8 ≠ 0)
    (hlock : env.reservedLock = .ok false) :
    ∀ hr, resolveDirty { env with headerRead := hr } db =
      (.error .hotJournal, db) := by
  have hhot : validJournal env.journalBytes = true := by
    rw [hjb]
    simp [validJournal, hlen, bne_iff_ne, hcount]
    simpa using hmagic
  intro hr
  unfold resolveDirty
  simp [hd, hj, hhot, hlock]

/-- A hot journal sidecar: magic, page count 5, padded to 28 bytes. -/
def hotJournalBytes : List Nat :=
  journalMagic ++ [0, 0, 0, 5] ++ List.replicate 16 0

/-- A test environment whose journal sidecar is hot. -/
def envHot : Env :=
  { journalBytes := some hotJournalBytes
    headerRead := .ok validHeaderBytes
    reservedLock := filePagerCheckReservedLock
    masterOpenErr := none
    masterRows := [] }

/-- Witness for C4: the hot sidecar blocks a dirty resolve and leaves
the state unchanged, for a concrete header read. -/
theorem resolveDirty_hot_journal_blocks_witness :
    resolveDirty { envHot with headerRead := .ok validHeaderBytes } dbDirty =
      (.error .hotJournal, dbDirty) :=
  resolveDirty_hot_journal_blocks envHot dbDirty hotJournalBytes rfl
    (by decide) rfl (by decide) (by decide) (by decide) rfl (.ok validHeaderBytes)

/-- C5: every visited `sqlite_master` row must decode to exactly a
5-tuple whose first, second, third and fifth values are text and whose
fourth is an integer, otherwise the invalid-definition error is
returned; an empty sql text (implicit auto-indexes) is accepted, and a
row list that is well-shaped throughout yields no error from the
iteration. -/
theorem master_row_shape :
    (∀ t n tb (i : Int) s,
      masterRow [.text t, .text n, .text tb, .int i, .text s] =
        .ok ⟨t, n, tb, i, s⟩) ∧
    (∀ e : List Value,
      (¬ (∃ (t n tb : String) (i : Int) (s : String),
        e = [.text t, .text n, .text tb, .int i, .text s])) →
      masterRow e = .error .invalidDef) ∧
    (∀ rows : List (List Value),
      (∀ r ∈ rows, ∃ (t n tb : String) (i : Int) (s : String),
        r = [.text t, .text n, .text tb, .int i, .text s]) →
      (masterCompute rows).2 = none) := by
  refine ⟨fun t n tb i s => rfl, ?_, ?_⟩
  · intro e hne
    by_cases hlen : e.length = 5
    · obtain ⟨v1, v2, v3, v4, v5, rfl⟩ :
          ∃ v1 v2 v3 v4 v5, e = [v1, v2, v3, v4, v5] := by
        rcases e with _ | ⟨v1, _ | ⟨v2, _ | ⟨v3, _ | ⟨v4, _ | ⟨v5, _ | ⟨v6, rest⟩⟩⟩⟩⟩⟩ <;>
          simp at hlen
        exact ⟨v1, v2, v3, v4, v5, rfl⟩
      unfold masterRow
      rw [if_neg (by simp)]
      split
      · rename_i t n tb i s h1 h2 h3 h4 h5
        exact absurd ⟨t, n, tb, i, s, by simp_all⟩ hne
      · rfl
    · simp [masterRow, hlen]
  · intro rows hall
    induction rows with
    | nil => rfl
    | cons r rs ih =>
      obtain ⟨t, n, tb, i, s, rfl⟩ := hall _ (List.mem_cons_self _ _)
      have ih' := ih (fun x hx => hall x (List.mem_cons_of_mem _ hx))
      simpa [masterCompute, masterRow] using ih'

/-- Witness for C5: a well-shaped row with empty sql is accepted; a row
whose second value is an integer is rejected. -/
theorem master_row_shape_witness :
    masterRow [.text "index", .text "sqlite_autoindex_foo_1", .text "foo",
        .int 42, .text ""] =
      .ok ⟨"index", "sqlite_autoindex_foo_1", "foo", 42, ""⟩ ∧
    masterRow [.text "table", .int 1, .text "x", .int 2, .text "y"] =
      .error .invalidDef :=
  ⟨master_row_shape.1 "index" "sqlite_autoindex_foo_1" "foo" 42 "",
   master_row_shape.2.1 _ (by rintro ⟨t, n, tb, i, s, h⟩; simp at h)⟩

theorem tableSearch_eq_find (name : String) (objects : List SqliteMaster) :
    tableSearch name objects =
      match objects.find? (fun o => decide (o.typ = "table" ∧ o.name = name)) with
      | some o => .ok ⟨o.rootPage, o.sql⟩
      | none => .error .noSuchTable := by
  induction objects with
  | nil => rfl
  | cons o os ih =>
    by_cases h1 : o.typ = "table" <;> by_cases h2 : o.name = name <;>
      simp [tableSearch, List.find?, h1, h2, ih]

theorem indexSearch_eq_find (name : String) (objects : List SqliteMaster) :
    indexSearch name objects =
      match objects.find? (fun o => decide (o.typ = "index" ∧ o.name = name)) with
      | some o => .ok ⟨o.rootPage, o.sql⟩
      | none => .error .noSuchIndex := by
  induction objects with
  | nil => rfl
  | cons o os ih =>
    by_cases h1 : o.typ = "index" <;> by_cases h2 : o.name = name <;>
      simp [indexSearch, List.find?, h1, h2, ih]

/-- C6: `Table(name)` linearly searches master and yields a handle with
the root page and SQL text of the first entry with type "table" and the
given name, or the no-such-table error when none exists; `Index(name)`
behaves identically over type "index" entries with the no-such-index
error.  `Database.Table`/`Database.Index` reduce to these searches when
master reports no error. -/
theorem table_index_lookup (name : String) (objects : List SqliteMaster) :
    (tableSearch name objects =
      match objects.find? (fun o => decide (o.typ = "table" ∧ o.name = name)) with
      | some o => .ok ⟨o.rootPage, o.sql⟩
      | none => .error .noSuchTable) ∧
    (indexSearch name objects =
      match objects.find? (fun o => decide (o.typ = "index" ∧ o.name = name)) with
      | some o => .ok ⟨o.rootPage, o.sql⟩
      | none => .error .noSuchIndex) ∧
    (∀ env db, (master env db).1.2 = none →
      (dbTable env db name).1 = tableSearch name (master env db).1.1) ∧
    (∀ env db, (master env db).1.2 = none →
      (dbIndex env db name).1 = indexSearch name (master env db).1.1) := by
  refine ⟨tableSearch_eq_find name objects, indexSearch_eq_find name objects,
    ?_, ?_⟩ <;>
    (intro env db h
     rcases hm : master env db with ⟨⟨objs, err⟩, db'⟩
     rw [hm] at h
     simp at h
     subst h
     simp [dbTable, dbIndex, hm])

/-- A concrete master fixture: one table and one index. -/
def masterFixture : List SqliteMaster :=
  [⟨"table", "hello", "hello", 2, "CREATE TABLE hello (a, b, c)"⟩,
   ⟨"index", "hello_a", "hello", 3, "CREATE INDEX hello_a ON hello (a)"⟩]

/-- A clean database state whose object cache holds `masterFixture`. -/
def dbCachedFixture : DBState :=
  { journal := "x-journal", dirty := false, header := some ⟨4096, 7, 3⟩,
    btreeCache := [1], objectCache := some ⟨masterFixture, none⟩ }

/-- Witness for C6: finding the table, missing an index, and the
`Database.Table` path over the cached fixture. -/
theorem table_index_lookup_witness :
    tableSearch "hello" masterFixture =
      .ok ⟨2, "CREATE TABLE hello (a, b, c)"⟩ ∧
    indexSearch "missing" masterFixture = .error .noSuchIndex ∧
    (dbTable envPlain dbCachedFixture "hello").1 =
      tableSearch "hello" (master envPlain dbCachedFixture).1.1 :=
  ⟨by rw [(table_index_lookup "hello" masterFixture).1]; rfl,
   by rw [(table_index_lookup "missing" masterFixture).2.1]; rfl,
   (table_index_lookup "hello" masterFixture).2.2.1 envPlain dbCachedFixture rfl⟩

/-- C7: a page id below 1 yields the invalid-page error without
touching the file (any file gives the same answer); an id at least 1
whose region lies inside the mapping yields exactly `page_size` bytes
read from offset `(id-1)*page_size`; an id at least 1 whose region lies
past the end of the mapping fails with the file-truncated error. -/
theorem page_read (file : List Nat) (ps : Nat) (id : Int) :
    (id < 1 → ∀ file', dbPage file' ps id = .error (.ioMsg "invalid page number")) ∧
    (1 ≤ id → (id.toNat - 1) * ps + ps ≤ file.length →
      dbPage file ps id = .ok ((file.drop ((id.toNat - 1) * ps)).take ps) ∧
      ((file.drop ((id.toNat - 1) * ps)).take ps).length = ps) ∧
    (1 ≤ id → file.length < (id.toNat - 1) * ps + ps →
      dbPage file ps id = .error .fileTruncated) := by
  refine ⟨?_, ?_, ?_⟩
  · intro h file'
    simp [dbPage, h]
  · intro h hin
    have hnl : ¬ id < 1 := by omega
    refine ⟨?_, ?_⟩
    · simp [dbPage, hnl, filePagerPage, mmapReadAt, hin]
    · rw [List.length_take, List.length_drop]
      omega
  · intro h hout
    have hnl : ¬ id < 1 := by omega
    have : ¬ ((id.toNat - 1) * ps + ps ≤ file.length) := by omega
    simp [dbPage, hnl, filePagerPage, mmapReadAt, this]

/-- Witness for C7 over a four-byte file with two-byte pages: id 0 is
invalid, id 2 reads bytes 2..3, id 3 is past the mapping. -/
theorem page_read_witness :
    dbPage [10, 11, 12, 13] 2 0 = .error (.ioMsg "invalid page number") ∧
    dbPage [10, 11, 12, 13] 2 2 = .ok [12, 13] ∧
    dbPage [10, 11, 12, 13] 2 3 = .error .fileTruncated :=
  ⟨(page_read [10, 11, 12, 13] 2 0).1 (by decide) [10, 11, 12, 13],
   ((page_read [10, 11, 12, 13] 2 2).2.1 (by decide) (by decide)).1,
   (page_read [10, 11, 12, 13] 2 3).2.2 (by decide) (by decide)⟩

/-- C8: `master()` memoizes both its object list and its error.  With
the dirty flag clear, a populated object cache is returned verbatim —
objects and error alike, for any environment, so no page-1 traversal
happens and a cached failure repeats identically — and the state is
unchanged; with an empty cache the computed objects and error are
stored together in the cache; and even a dirty resolve with an unchanged
schema cookie keeps serving the cached objects and error. -/
theorem master_memoizes_objects_and_error (env : Env) (db : DBState) :
    (∀ o, db.dirty = false → db.objectCache = some o →
      master env db = ((o.objects, o.err), db)) ∧
    (db.dirty = false → db.objectCache = none → env.masterOpenErr = none →
      master env db =
        (masterCompute env.masterRows,
          { db with objectCache := some ⟨(masterCompute env.masterRows).1,
              (masterCompute env.masterRows).2⟩ })) ∧
    (∀ buf newH o h,
      db.dirty = true →
      (db.journal = "" ∨ validJournal env.journalBytes = false ∨
        env.reservedLock = .ok true) →
      env.headerRead = .ok buf →
      parseHeader buf = .ok newH →
      db.header = some h → h.schemaCookie = newH.schemaCookie →
      db.objectCache = some o →
      (master env db).1 = (o.objects, o.err)) := by
  refine ⟨?_, ?_, ?_⟩
  · intro o hd ho
    simp [master, resolveDirty, hd, ho]
  · intro hd hc hoe
    rcases hp : masterCompute env.masterRows with ⟨objs, err⟩
    simp [master, resolveDirty, hd, hc, hoe, hp]
  · intro buf newH o h hd hgate hread hparse hh hcook hoc
    have hres := resolveDirty_success env db buf newH hd hgate hread hparse
    unfold master
    rw [hres]
    simp [hh, hcook, hoc]

/-- A clean state whose object cache holds a cached failure. -/
def dbCachedErr : DBState :=
  { journal := "x-journal", dirty := false, header := some ⟨4096, 7, 3⟩,
    btreeCache := [1], objectCache := some ⟨[], some .invalidDef⟩ }

/-- An environment whose page-1 rows hold one well-formed master row. -/
def envRows : Env :=
  { journalBytes := none
    headerRead := .ok validHeaderBytes
    reservedLock := filePagerCheckReservedLock
    masterOpenErr := none
    masterRows := [[.text "table", .text "hello", .text "hello", .int 2,
      .text "CREATE TABLE hello (a, b, c)"]] }

/-- Witness for C8: a cached error repeats verbatim even under a
different environment, and a fresh computation stores objects and error
in the cache. -/
theorem master_memoizes_objects_and_error_witness :
    master envHot dbCachedErr = (([], some .invalidDef), dbCachedErr) ∧
    master envRows dbClean =
      (([⟨"table", "hello", "hello", 2, "CREATE TABLE hello (a, b, c)"⟩], none),
        { dbClean with objectCache := some ⟨[⟨"table", "hello", "hello", 2,
            "CREATE TABLE hello (a, b, c)"⟩], none⟩ }) :=
  ⟨(master_memoizes_objects_and_error envHot dbCachedErr).1
      ⟨[], some .invalidDef⟩ rfl rfl,
   (master_memoizes_objects_and_error envRows dbClean).2.1 rfl rfl rfl⟩

theorem iterTrace_stop (f : α → Except DBErr Bool) :
    ∀ (xs t : List α) (r : Except DBErr Bool), iterTrace f xs = (t, r) →
      (∀ k (hk : k + 1 < t.length),
        f (t.get ⟨k, Nat.lt_of_succ_lt hk⟩) = .ok false) ∧
      (∀ c, t.getLast? = some c → f c = .ok true → r = .ok true) := by
  intro xs
  induction xs with
  | nil =>
    intro t r h
    unfold iterTrace at h
    injection h with h1 h2
    subst h1
    subst h2
    constructor
    · intro k hk
      simp at hk
    · intro c hc
      simp at hc
  | cons x xs ih =>
    intro t r h
    unfold iterTrace at h
    cases hfx : f x with
    | error e =>
      rw [hfx] at h
      injection h with h1 h2
      subst h1
      subst h2
      constructor
      · intro k hk
        simp at hk
      · intro c hc htrue
        simp at hc
        subst hc
        rw [hfx] at htrue
        exact absurd htrue (by simp)
    | ok stopped =>
      rw [hfx] at h
      cases stopped with
      | true =>
        simp only [] at h
        injection h with h1 h2
        subst h1
        subst h2
        constructor
        · intro k hk
          simp at hk
        · intro c hc htrue
          rfl
      | false =>
        rcases hrec : iterTrace f xs with ⟨t', r'⟩
        rw [hrec] at h
        simp only [] at h
        injection h with h1 h2
        subst h1
        subst h2
        constructor
        · intro k hk
          cases k with
          | zero => exact hfx
          | succ j =>
            exact (ih t' r' hrec).1 j
              (by simp only [List.length_cons] at hk; omega)
        · intro c hc htrue
          cases t' with
          | nil =>
            simp at hc
            subst hc
            rw [hfx] at htrue
            exact absurd htrue (by simp)
          | cons y t'' =>
            rw [List.getLast?_cons_cons] at hc
            exact (ih _ _ hrec).2 c hc htrue

/-- C9: for every table scan and every index scan, once the user
callback returns `stop = true` the traversal invokes no further
callbacks — every visited cell except the last produced `stop = false` —
and a stop itself ends the scan with a clean (error-free) result. -/
theorem scan_stop_propagation :
    (∀ (cells : List (Int × Except DBErr (List Value)))
        (cb : Int → List Value → Bool),
      (∀ k (hk : k + 1 < (tableScanTrace cells cb).1.length),
        tableScanStep cb
          ((tableScanTrace cells cb).1.get ⟨k, Nat.lt_of_succ_lt hk⟩) =
            .ok false) ∧
      (∀ c, (tableScanTrace cells cb).1.getLast? = some c →
        tableScanStep cb c = .ok true →
        (tableScanTrace cells cb).2 = .ok true)) ∧
    (∀ (cells : List (Except DBErr (List Value))) (cb : List Value → Bool),
      (∀ k (hk : k + 1 < (indexScanTrace cells cb).1.length),
        indexScanStep cb
          ((indexScanTrace cells cb).1.get ⟨k, Nat.lt_of_succ_lt hk⟩) =
            .ok false) ∧
      (∀ c, (indexScanTrace cells cb).1.getLast? = some c →
        indexScanStep cb c = .ok true →
        (indexScanTrace cells cb).2 = .ok true)) :=
  ⟨fun cells cb => iterTrace_stop (tableScanStep cb) cells
      (tableScanTrace cells cb).1 (tableScanTrace cells cb).2 rfl,
   fun cells cb => iterTrace_stop (indexScanStep cb) cells
      (indexScanTrace cells cb).1 (indexScanTrace cells cb).2 rfl⟩

/-- Concrete scan cells: rowids 1, 2, 3 with decoded records. -/
def cellsW : List (Int × Except DBErr (List Value)) :=
  [(1, .ok [.int 10]), (2, .ok [.int 20]), (3, .ok [.int 30])]

/-- A callback that stops at rowid 2. -/
def cbW : Int → List Value → Bool := fun rid _ => rid == 2

/-- Witness for C9: with a stop at rowid 2, the only earlier visited
cell produced `stop = false`, and the scan ends cleanly. -/
theorem scan_stop_propagation_witness :
    tableScanStep cbW
      ((tableScanTrace cellsW cbW).1.get ⟨0, by decide⟩) = .ok false ∧
    (tableScanTrace cellsW cbW).2 = .ok true :=
  ⟨(scan_stop_propagation.1 cellsW cbW).1 0 (by decide),
   (scan_stop_propagation.1 cellsW cbW).2 (2, .ok [.int 20]) rfl rfl⟩

theorem journalName_ne_empty (f : String) : journalName f ≠ "" := by
  unfold journalName
  intro h
  have hlen := congrArg String.length h
  rw [String.length_append] at hlen
  have h8 : ("-journal" : String).length = 8 := rfl
  have h0 : ("" : String).length = 0 := rfl
  omega

/-- C10: the pager's `CheckReservedLock` returns `(false, nil)`
unconditionally, so whenever the journal sidecar qualifies as hot,
`resolve_dirty` on a dirty state — and hence `open` and every traversal
entry through `master` — always fails with the hot-journal error: the
branch tolerating a hot journal under a reserved lock is unreachable
with this pager. -/
theorem hot_journal_always_fatal :
    filePagerCheckReservedLock = .ok false ∧
    (∀ env db, env.reservedLock = filePagerCheckReservedLock →
      db.dirty = true → db.journal ≠ "" →
      validJournal env.journalBytes = true →
      resolveDirty env db = (.error .hotJournal, db) ∧
      (master env db).1 = ([], some .hotJournal)) ∧
    (∀ env f, env.reservedLock = filePagerCheckReservedLock →
      validJournal env.journalBytes = true →
      (openFile env f).1 = .error .hotJournal) := by
  refine ⟨rfl, ?_, ?_⟩
  · intro env db hlock hd hj hhot
    rw [filePagerCheckReservedLock] at hlock
    have h1 : resolveDirty env db = (.error .hotJournal, db) := by
      unfold resolveDirty
      simp [hd, hj, hhot, hlock]
    exact ⟨h1, by simp [master, h1]⟩
  · intro env f hlock hhot
    rw [filePagerCheckReservedLock] at hlock
    unfold openFile newDatabase resolveDirty
    simp [journalName_ne_empty f, hhot, hlock]

/-- Witness for C10: over the hot-journal environment, `master` on a
dirty state and `open` both fail with the hot-journal error. -/
theorem hot_journal_always_fatal_witness :
    (master envHot dbDirty).1 = ([], some .hotJournal) ∧
    (openFile envHot "foo.sqlite").1 = .error .hotJournal :=
  ⟨((hot_journal_always_fatal.2.1 envHot dbDirty rfl rfl (by decide)
      (by decide))).2,
   hot_journal_always_fatal.2.2 envHot "foo.sqlite" rfl (by decide)⟩

end Sqlittle
